import Mathlib

/-!
Verification of the selection/refresh engine of the stremio-shufflist
addon (`CatalogService.ts` together with the data model of
`ConfigStore.ts`), as a shallow embedding in Lean 4.

Modelling conventions:
* Adapter calls (`fetchListItems`, which includes provider normalisation and
  the optional Fisher-Yates shuffle) are abstracted as an oracle
  `fetch : SourceList → Except String FetchRes`; `Math.random` is abstracted
  as a choice oracle `choice : Nat → Nat` whose value is reduced modulo the
  current pool length; `Date.now()` is an explicit `now : Nat` parameter.
* JavaScript truthiness of optional strings (`undefined` and `""` are both
  falsy) is modelled by `truthyStr`.
* Persistence (`ConfigStore.saveConfig`) is tracked by a `saved` flag on the
  refresh outcome; item fields not referenced by any verified property
  (`poster`, `background`) are omitted from the `Item` record.
* The `while (pool.length > 0)` retry loop is written with an explicit fuel
  argument initialised to the pool length; since every iteration removes
  exactly one element from the pool, the fuel never runs out before the pool
  is empty.
-/

/-- `ContentType` enum of `ConfigStore.ts` (`'movie' | 'series'`). -/
inductive ContentType where
  | movie
  | series
deriving DecidableEq, Repr

/-- The string value of a `ContentType` enum member. -/
def ContentType.str : ContentType → String
  | .movie => "movie"
  | .series => "series"

/-- `SourceType` enum of `ConfigStore.ts`. -/
inductive SourceType where
  | traktUserList
  | defaultList
  | mdblistList
  | plexCollection
deriving DecidableEq, Repr

/-- Normalised media item (`MetaPreview`); `type` is the raw string type
field. -/
structure Item where
  id : String
  type : String
  name : String
  description : String
deriving DecidableEq, Repr

/-- The `currentSelection` record embedded in a `CatalogSlot`. -/
structure Selection where
  name : String
  sourceType : SourceType
  sourceId : Option String
  items : List Item
deriving DecidableEq, Repr

/-- `CatalogSlot` of `ConfigStore.ts`; `type` is optional because the code
defends every read with `slot.type || ContentType.MOVIE`. -/
structure CatalogSlot where
  id : String
  aliasName : String
  type : Option ContentType
  listIds : List String
  currentSelection : Option Selection
deriving DecidableEq, Repr

/-- `SourceList` of `ConfigStore.ts`; the provider-specific `config`,
`shuffle` and `limit` fields only influence the abstracted adapter fetch and
are not carried here beyond `shuffle`/`limit` placeholders. -/
structure SourceList where
  id : String
  aliasName : String
  type : SourceType
  contentType : Option ContentType
  group : Option String
  shuffle : Bool
  limit : Option Nat
deriving DecidableEq, Repr

/-- `AppSettings` of `ConfigStore.ts`. -/
structure AppSettings where
  refreshIntervalHours : Nat
  defaultItemLimit : Nat
deriving DecidableEq, Repr

/-- The whole configuration blob (`ConfigData`). -/
structure ConfigData where
  lists : List SourceList
  slots : List CatalogSlot
  settings : AppSettings
deriving DecidableEq, Repr

/-- JavaScript truthiness for an optional string: `undefined` and `""` are
falsy, everything else is kept. -/
def truthyStr : Option String → Option String
  | none => none
  | some s => if s = "" then none else some s

/-- `l.contentType || ContentType.MOVIE` / `slot.type || ContentType.MOVIE`. -/
def ctOrMovie : Option ContentType → ContentType
  | none => .movie
  | some t => t

/-- Substring check on character lists, mirroring JavaScript
`String.prototype.includes`. -/
def hasSubstr : List Char → List Char → Bool
  | [], needle => needle.isEmpty
  | c :: t, needle => needle.isPrefixOf (c :: t) || hasSubstr t needle

/-- `s.includes(sub)` on strings. -/
def jsIncludes (s sub : String) : Bool :=
  hasSubstr s.data sub.data

/-- `CatalogService.formatFailReason`: best-effort categorisation of an
adapter error message. -/
def formatFailReason (message : String) : String :=
  if jsIncludes message "404" then "not found"
  else if jsIncludes message "401" || jsIncludes message "403" then "access denied"
  else if jsIncludes message "empty" then "was empty"
  else if jsIncludes message "Missing" then "invalid config"
  else "unreachable"

/-- `CatalogService.createHeaderItem`: the synthetic header prepended to a
committed selection (`poster`/`background` omitted, see module comment). -/
def createHeaderItem (slot : CatalogSlot) (listName : String) (now : Nat) : Item :=
  { id := "shufflist_header_" ++ slot.id ++ "_" ++ toString now
    type := ContentType.str .movie
    name := listName
    description := "Currently displaying: " ++ listName }

/-- The truthy `currentSelection?.sourceId` of a slot (`undefined`/`""` are
falsy). -/
def activeSourceId (s : CatalogSlot) : Option String :=
  truthyStr (s.currentSelection.bind (·.sourceId))

/-- `availableLists` of `refreshSlot`: configured lists filtered by
membership in `slot.listIds` and by matching content type. -/
def availableListsFor (cfg : ConfigData) (slot : CatalogSlot) : List SourceList :=
  cfg.lists.filter (fun l =>
    slot.listIds.contains l.id && (ctOrMovie l.contentType == ctOrMovie slot.type))

/-- `otherActiveSelections` of `refreshSlot`: `(sourceId, group)` of every
other slot with a truthy active selection. -/
def otherActiveFor (cfg : ConfigData) (slotId : String) : List (String × Option String) :=
  (cfg.slots.filter (fun s => s.id != slotId && (activeSourceId s).isSome)).map
    (fun s =>
      let sid := (activeSourceId s).getD ""
      (sid, (cfg.lists.find? (fun l => l.id == sid)).bind (·.group)))

/-- `activeListIds` of `refreshSlot`. -/
def activeListIdsFor (cfg : ConfigData) (slotId : String) : List String :=
  (otherActiveFor cfg slotId).map (·.1)

/-- `activeGroups` of `refreshSlot` (truthy groups only). -/
def activeGroupsFor (cfg : ConfigData) (slotId : String) : List String :=
  ((otherActiveFor cfg slotId).map (·.2)).filterMap truthyStr

/-- The exclusivity-filtered `candidates` of `refreshSlot`
(Rule A: drop lists active elsewhere; Rule B: drop lists whose truthy group
is active elsewhere). -/
def candidatesFor (cfg : ConfigData) (slotId : String) (slot : CatalogSlot) : List SourceList :=
  (availableListsFor cfg slot).filter (fun l =>
    !((activeListIdsFor cfg slotId).contains l.id) &&
    !(match truthyStr l.group with
      | some g => (activeGroupsFor cfg slotId).contains g
      | none => false))

/-- `selectionPool` of `refreshSlot`: the candidates, widened to the full
available pool when exclusivity filtering left nothing. -/
def selectionPoolFor (cfg : ConfigData) (slotId : String) (slot : CatalogSlot) : List SourceList :=
  if (candidatesFor cfg slotId slot).isEmpty then availableListsFor cfg slot
  else candidatesFor cfg slotId slot

/-- Result of the abstracted `fetchListItems` adapter call: the normalised
(and, when enabled, shuffled) items plus the resolved display name. -/
structure FetchRes where
  items : List Item
  listName : String
deriving DecidableEq, Repr

/-- Outcome of the retry loop of `refreshSlot`. -/
inductive LoopResult where
  | success (chosen : SourceList) (res : FetchRes) (attempts : Nat)
      (firstFailedName firstFailReason : String) (trace : List SourceList)
  | exhausted (lastError : String) (trace : List SourceList)
deriving DecidableEq, Repr

/-- The `while (pool.length > 0)` retry loop of `refreshSlot`.  `fuel` is
initialised to the pool length; `k` indexes the random oracle; `tr`
accumulates the attempted lists newest-first (the returned trace is in
attempt order). -/
def refreshLoop (fetch : SourceList → Except String FetchRes) (choice : Nat → Nat) :
    Nat → Nat → List SourceList → Nat → String → String → String → List SourceList →
    LoopResult
  | 0, _, _, _, _, _, le, tr => .exhausted le tr.reverse
  | fuel + 1, k, pool, attempts, ffn, ffr, le, tr =>
    match pool with
    | [] => .exhausted le tr.reverse
    | p :: ps =>
      let i := choice k % (p :: ps).length
      let randomList := (p :: ps).getD i p
      match fetch randomList with
      | .ok res =>
        .success randomList res attempts ffn ffr (randomList :: tr).reverse
      | .error msg =>
        refreshLoop fetch choice fuel (k + 1) ((p :: ps).eraseIdx i) (attempts + 1)
          (if attempts = 0 then randomList.aliasName else ffn)
          (if attempts = 0 then formatFailReason msg else ffr)
          (if attempts = 0 then msg else le)
          (randomList :: tr)

/-- The metadata returned by a successful `refreshSlot`. -/
structure RefreshSuccess where
  listName : String
  retried : Bool
  isEmpty : Bool
  failedListName : String
  failReason : String
deriving DecidableEq, Repr

/-- The value returned by `refreshSlot` (`noSlot`/`noLists` are the
`undefined` early returns). -/
inductive RefreshResult where
  | noSlot
  | noLists
  | ok (r : RefreshSuccess)
  | failed (error : String)
deriving DecidableEq, Repr

/-- Committed configuration, returned value, persistence flag and the list
of attempted source lists of one `refreshSlot` call. -/
structure RefreshOutcome where
  config : ConfigData
  result : RefreshResult
  saved : Bool
  trace : List SourceList
deriving Repr

/-- Replace the first slot with the given id (JS mutates the object found by
`slots.find`, i.e. the first match). -/
def updateFirstSlot (slots : List CatalogSlot) (sid : String) (f : CatalogSlot → CatalogSlot) :
    List CatalogSlot :=
  match slots with
  | [] => []
  | s :: rest =>
    if s.id == sid then f s :: rest else s :: updateFirstSlot rest sid f

/-- `CatalogService.refreshSlot`. -/
def refreshSlot (fetch : SourceList → Except String FetchRes) (choice : Nat → Nat)
    (now : Nat) (cfg : ConfigData) (slotId : String) : RefreshOutcome :=
  match cfg.slots.find? (fun s => s.id == slotId) with
  | none => { config := cfg, result := .noSlot, saved := false, trace := [] }
  | some slot =>
    if (availableListsFor cfg slot).isEmpty then
      { config := cfg, result := .noLists, saved := false, trace := [] }
    else
      let pool := selectionPoolFor cfg slotId slot
      match refreshLoop fetch choice pool.length 0 pool 0 "" "" "" [] with
      | .success chosen res attempts ffn ffr trace =>
        let headerItem := createHeaderItem slot res.listName now
        let sel : Selection :=
          { name := res.listName
            sourceType := chosen.type
            sourceId := some chosen.id
            items := headerItem :: res.items }
        { config := { cfg with
            slots := updateFirstSlot cfg.slots slotId
              (fun s => { s with currentSelection := some sel }) }
          result := .ok
            { listName := res.listName
              retried := decide (0 < attempts)
              isEmpty := res.items.isEmpty
              failedListName := ffn
              failReason := ffr }
          saved := true
          trace := trace }
      | .exhausted lastError trace =>
        { config := cfg
          result := .failed (if lastError = "" then "All lists failed" else lastError)
          saved := false
          trace := trace }

/-- The `validSlots` of `refreshAllSlots`: slots with at least one
configured list id. -/
def validSlotsOf (cfg : ConfigData) : List CatalogSlot :=
  cfg.slots.filter (fun s => !s.listIds.isEmpty)

/-- Stable insertion (equal keys keep their relative order, matching the
stable `Array.prototype.sort` of Node 18) by `listIds.length`. -/
def insertByLen (s : CatalogSlot) : List CatalogSlot → List CatalogSlot
  | [] => [s]
  | b :: l =>
    if s.listIds.length < b.listIds.length then s :: b :: l else b :: insertByLen s l

/-- `validSlots.sort((a, b) => a.listIds.length - b.listIds.length)`:
stable sort ascending by the number of configured list ids. -/
def sortSlotsByListCount (slots : List CatalogSlot) : List CatalogSlot :=
  slots.foldl (fun acc s => insertByLen s acc) []

/-- The clearing phase of `refreshAllSlots`: `validSlots.forEach(s =>
s.currentSelection = undefined)` — only slots with a non-empty `listIds` are
touched. -/
def clearValidSlots (cfg : ConfigData) : ConfigData :=
  { cfg with
    slots := cfg.slots.map (fun s =>
      if s.listIds.isEmpty then s else { s with currentSelection := none }) }

/-- `CatalogService.refreshAllSlots`; the random oracle is keyed per slot id
(a faithful parameterisation of the shared `Math.random` stream).  Returns
the final configuration and the per-slot results in processing order. -/
def refreshAllSlots (fetch : SourceList → Except String FetchRes)
    (choice : String → Nat → Nat) (now : Nat) (cfg : ConfigData) :
    ConfigData × List (String × RefreshResult) :=
  let sorted := sortSlotsByListCount (validSlotsOf cfg)
  let cfg1 := clearValidSlots cfg
  sorted.foldl (fun acc slot =>
    let o := refreshSlot fetch (choice slot.id) now acc.1 slot.id
    (o.config, acc.2 ++ [(slot.id, o.result)])) (cfg1, [])

/-- The slot object built by `addSlot`: id `Date.now().toString()`,
`listIds` defaulted to the ids of all configured lists of the matching
content type. -/
def newSlotFor (cfg : ConfigData) (aliasName : String) (ty : ContentType)
    (now : Nat) : CatalogSlot :=
  { id := toString now
    aliasName := aliasName
    type := some ty
    listIds := (cfg.lists.filter (fun l => ctOrMovie l.contentType == ty)).map (·.id)
    currentSelection := none }

/-- `CatalogService.addSlot`: create a slot defaulted to all lists of the
matching content type, then immediately refresh it. -/
def addSlot (fetch : SourceList → Except String FetchRes) (choice : Nat → Nat)
    (now : Nat) (cfg : ConfigData) (aliasName : String) (ty : ContentType) :
    ConfigData × RefreshOutcome :=
  let newSlot := newSlotFor cfg aliasName ty now
  let cfg1 := { cfg with slots := cfg.slots ++ [newSlot] }
  let o := refreshSlot fetch choice now cfg1 newSlot.id
  (o.config, o)

/-- The `Partial<CatalogSlot>` update payload accepted by `updateSlot`. -/
structure SlotUpdates where
  aliasName : Option String
  type : Option ContentType
  listIds : Option (List String)
deriving DecidableEq, Repr

/-- `CatalogService.updateSlot`: apply aliasName/listIds/type changes; a refresh
is forced only when a `listIds` update leaves the current selection's truthy
`sourceId` outside the new id set.  Returns the new configuration and the
refresh outcome when one was forced (`null` otherwise). -/
def updateSlot (fetch : SourceList → Except String FetchRes) (choice : Nat → Nat)
    (now : Nat) (cfg : ConfigData) (id : String) (updates : SlotUpdates) :
    ConfigData × Option RefreshOutcome :=
  match cfg.slots.find? (fun s => s.id == id) with
  | none => (cfg, none)
  | some slot =>
    let slot1 :=
      match updates.aliasName with
      | some a => if a = "" then slot else { slot with aliasName := a }
      | none => slot
    let step2 :=
      match updates.listIds with
      | some lids =>
        ({ slot1 with listIds := lids },
          match slot1.currentSelection with
          | some sel =>
            match sel.sourceId with
            | some sid => if sid = "" then false else !(lids.contains sid)
            | none => false
          | none => false)
      | none => (slot1, false)
    let slot3 :=
      match updates.type with
      | some t => { step2.1 with type := some t }
      | none => step2.1
    let cfg1 := { cfg with slots := updateFirstSlot cfg.slots id (fun _ => slot3) }
    if step2.2 then
      let o := refreshSlot fetch choice now cfg1 id
      (o.config, some o)
    else (cfg1, none)

/-- `CatalogService.deleteSlot`. -/
def deleteSlot (cfg : ConfigData) (id : String) : ConfigData :=
  { cfg with slots := cfg.slots.filter (fun s => s.id != id) }

/-- The group of the source list an active `sourceId` points at. -/
def listGroupOf (cfg : ConfigData) (sid : String) : Option String :=
  (cfg.lists.find? (fun l => l.id == sid)).bind (·.group)

/-- Two slots conflict when their selections point at the same source list,
or at two source lists sharing the same non-empty group. -/
def slotsConflict (cfg : ConfigData) (s t : CatalogSlot) : Bool :=
  match s.currentSelection.bind (·.sourceId), t.currentSelection.bind (·.sourceId) with
  | some a, some b =>
    a == b ||
    (match listGroupOf cfg a, listGroupOf cfg b with
     | some ga, some gb => decide (ga ≠ "") && ga == gb
     | _, _ => false)
  | _, _ => false

/-- The cross-slot exclusivity invariant of the specification. -/
def ExclusiveInv (cfg : ConfigData) : Prop :=
  cfg.slots.Pairwise (fun s t => slotsConflict cfg s t = false)

/-- One operation of the selection engine / slot lifecycle manager, with
arbitrary oracles. -/
inductive EngineStep : ConfigData → ConfigData → Prop where
  | refresh (fetch : SourceList → Except String FetchRes) (choice : Nat → Nat)
      (now : Nat) (cfg : ConfigData) (slotId : String) :
      EngineStep cfg (refreshSlot fetch choice now cfg slotId).config
  | refreshAll (fetch : SourceList → Except String FetchRes)
      (choice : String → Nat → Nat) (now : Nat) (cfg : ConfigData) :
      EngineStep cfg (refreshAllSlots fetch choice now cfg).1
  | add (fetch : SourceList → Except String FetchRes) (choice : Nat → Nat)
      (now : Nat) (cfg : ConfigData) (aliasName : String) (ty : ContentType) :
      EngineStep cfg (addSlot fetch choice now cfg aliasName ty).1
  | update (fetch : SourceList → Except String FetchRes) (choice : Nat → Nat)
      (now : Nat) (cfg : ConfigData) (id : String) (updates : SlotUpdates) :
      EngineStep cfg (updateSlot fetch choice now cfg id updates).1
  | del (cfg : ConfigData) (id : String) :
      EngineStep cfg (deleteSlot cfg id)

/-- Reachability through engine operations. -/
def EngineReachable (a b : ConfigData) : Prop :=
  Relation.ReflTransGen EngineStep a b

/-- A committed state with no active selections (e.g. a fresh configuration
before the engine has run). -/
def NoSelections (cfg : ConfigData) : Prop :=
  ∀ s ∈ cfg.slots, s.currentSelection = none

/-- Candidate-pool size of a slot in the sense of the specification: the
number of eligible (id-selected, type-matching) source lists. -/
def candidatePoolSize (cfg : ConfigData) (sid : String) : Nat :=
  match cfg.slots.find? (fun s => s.id == sid) with
  | some s => (availableListsFor cfg s).length
  | none => 0

/-! ### Generic list lemmas used by the loop analysis -/

/-- Any list is a permutation of its `i`-th element consed onto the list
with that index erased (the shape of one retry-loop step). -/
theorem perm_get_cons_eraseIdx {α : Type} :
    ∀ (l : List α) (i : Nat) (h : i < l.length),
      List.Perm l (l.get ⟨i, h⟩ :: l.eraseIdx i)
  | a :: t, 0, _ => List.Perm.refl _
  | a :: t, i + 1, h => by
    have ih := perm_get_cons_eraseIdx t i (Nat.lt_of_succ_lt_succ h)
    exact (List.Perm.cons a ih).trans (List.Perm.swap _ _ _)

/-- `find?` by id returns the element itself when ids are unique. -/
theorem find?_id_of_nodup :
    ∀ (l : List SourceList), (l.map (·.id)).Nodup →
      ∀ x ∈ l, l.find? (fun y => y.id == x.id) = some x := by
  intro l
  induction l with
  | nil => intro _ x hx; cases hx
  | cons a t ih =>
    intro hnd x hx
    rw [List.map_cons] at hnd
    rcases List.mem_cons.mp hx with rfl | hxt
    · simp [List.find?]
    · have hne : a.id ≠ x.id := by
        intro hcontra
        exact (List.nodup_cons.mp hnd).1
          (by rw [hcontra]; exact List.mem_map_of_mem _ hxt)
      rw [List.find?_cons_of_neg _ (by simp [hne])]
      exact ih (List.nodup_cons.mp hnd).2 x hxt

/-- An `Except` value that is no `ok` is an `error`. -/
theorem except_error_of_not_ok {e : Except String FetchRes}
    (h : ∀ r, e ≠ .ok r) : ∃ m, e = .error m := by
  cases e with
  | error m => exact ⟨m, rfl⟩
  | ok r => exact absurd rfl (h r)

/-- What one knows about the value of `refreshLoop` started in state
`(pool, att, le, tr)`: on success the chosen list comes from the pool and
its fetch succeeded, the trace counts the attempts, no list is attempted
twice, and the first-failure metadata describes the head of the trace; on
exhaustion the trace has no duplicates and an already-recorded first error
is preserved. -/
def LoopConcl (fetch : SourceList → Except String FetchRes) (pool : List SourceList)
    (att : Nat) (le : String) (tr : List SourceList) : LoopResult → Prop
  | .success chosen res att' ffn' ffr' trace =>
      chosen ∈ pool ∧ fetch chosen = .ok res ∧ att' + 1 = trace.length ∧
      (trace.map (·.id)).Nodup ∧
      (att' = 0 → trace = [chosen]) ∧
      (att' ≠ 0 → ∀ l, trace.head? = some l →
        ffn' = l.aliasName ∧ ∃ m, fetch l = .error m ∧ ffr' = formatFailReason m)
  | .exhausted le' trace =>
      (trace.map (·.id)).Nodup ∧ (att ≠ 0 → le' = le) ∧
      (pool = [] → le' = le ∧ trace = tr.reverse)

/-- The loop conclusion can be transported from a loop state reached after a
failed attempt back to the state before it. -/
theorem LoopConcl_step (fetch : SourceList → Except String FetchRes)
    {pool pool' : List SourceList} {att att' : Nat} {le le' : String}
    {tr tr' : List SourceList} {r : LoopResult}
    (h : LoopConcl fetch pool' att' le' tr' r)
    (hsub : ∀ x ∈ pool', x ∈ pool)
    (hattnz : att' ≠ 0)
    (hle : att ≠ 0 → le' = le)
    (hpool : pool ≠ []) :
    LoopConcl fetch pool att le tr r := by
  cases r with
  | success chosen res a f g trace =>
    obtain ⟨h1, h2, h3, h4, h5, h6⟩ := h
    exact ⟨hsub chosen h1, h2, h3, h4, h5, h6⟩
  | exhausted l trace =>
    obtain ⟨h1, h2, h3⟩ := h
    refine ⟨h1, ?_, fun hc => absurd hc hpool⟩
    intro hnz
    rw [h2 hattnz, hle hnz]

/-- Invariant-carrying specification of the retry loop. -/
theorem refreshLoop_spec (fetch : SourceList → Except String FetchRes) (choice : Nat → Nat) :
    ∀ (fuel k : Nat) (pool : List SourceList) (att : Nat) (ffn ffr le : String)
      (tr : List SourceList),
      pool.length ≤ fuel →
      att = tr.length →
      (∀ l, tr.getLast? = some l →
        ffn = l.aliasName ∧ ∃ m, fetch l = .error m ∧ ffr = formatFailReason m) →
      ((tr.map (·.id)) ++ (pool.map (·.id))).Nodup →
      LoopConcl fetch pool att le tr (refreshLoop fetch choice fuel k pool att ffn ffr le tr) := by
  intro fuel
  induction fuel with
  | zero =>
    intro k pool att ffn ffr le tr hfuel hatt hff hnd
    have hpool : pool = [] := List.length_eq_zero.mp (Nat.le_zero.mp hfuel)
    subst hpool
    simp only [refreshLoop, LoopConcl]
    refine ⟨?_, by simp, by simp⟩
    rw [List.map_reverse, List.nodup_reverse]
    exact (List.nodup_append.mp hnd).1
  | succ fuel ih =>
    intro k pool att ffn ffr le tr hfuel hatt hff hnd
    match pool with
    | [] =>
      simp only [refreshLoop, LoopConcl]
      refine ⟨?_, by simp, by simp⟩
      rw [List.map_reverse, List.nodup_reverse]
      exact (List.nodup_append.mp hnd).1
    | p :: ps =>
      simp only [refreshLoop]
      have hilt : choice k % (p :: ps).length < (p :: ps).length :=
        Nat.mod_lt _ (Nat.succ_pos ps.length)
      have hget : (p :: ps).getD (choice k % (p :: ps).length) p =
          (p :: ps).get ⟨choice k % (p :: ps).length, hilt⟩ := by
        rw [List.getD_eq_getElem _ _ hilt, List.get_eq_getElem]
      have hmem : (p :: ps).getD (choice k % (p :: ps).length) p ∈ (p :: ps) := by
        rw [hget]; exact List.get_mem _ _ _
      have hperm : List.Perm (p :: ps)
          ((p :: ps).getD (choice k % (p :: ps).length) p ::
            (p :: ps).eraseIdx (choice k % (p :: ps).length)) := by
        rw [hget]; exact perm_get_cons_eraseIdx (p :: ps) _ hilt
      cases hfetch : fetch ((p :: ps).getD (choice k % (p :: ps).length) p) with
      | ok res =>
        refine ⟨hmem, hfetch, ?_, ?_, ?_, ?_⟩
        · simp [hatt]
        · rw [List.map_reverse, List.nodup_reverse, List.map_cons, List.nodup_cons]
          refine ⟨?_, (List.nodup_append.mp hnd).1⟩
          intro hin
          exact ((List.nodup_append.mp hnd).2.2 hin) (List.mem_map_of_mem _ hmem)
        · intro hz
          have htr : tr = [] := List.length_eq_zero.mp (by rw [← hatt, hz])
          simp [htr]
        · intro hnz l hl
          have htr : tr ≠ [] := by
            intro hcontra
            rw [hcontra] at hatt
            exact hnz (by simpa using hatt)
          rw [List.reverse_cons] at hl
          have hl' : tr.getLast? = some l := by
            rw [← List.head?_reverse]
            cases hr : tr.reverse with
            | nil => exact absurd (by simpa using hr) htr
            | cons a t =>
              rw [hr] at hl
              simpa using hl
          exact hff l hl'
      | error msg =>
        have hlen : ((p :: ps).eraseIdx (choice k % (p :: ps).length)).length + 1 =
            (p :: ps).length := List.length_eraseIdx_add_one hilt
        have hff' : ∀ l,
            (((p :: ps).getD (choice k % (p :: ps).length) p) :: tr).getLast? = some l →
            (if att = 0 then ((p :: ps).getD (choice k % (p :: ps).length) p).aliasName else ffn)
              = l.aliasName ∧
            ∃ m, fetch l = .error m ∧
              (if att = 0 then formatFailReason msg else ffr) = formatFailReason m := by
          intro l hl
          cases htr : tr with
          | nil =>
            have hz : att = 0 := by rw [hatt, htr]; rfl
            rw [htr, List.getLast?_singleton] at hl
            cases hl
            subst hz
            exact ⟨rfl, msg, hfetch, rfl⟩
          | cons t0 ts =>
            have hnz : att ≠ 0 := by rw [hatt, htr]; simp
            rw [htr, List.getLast?_cons_cons] at hl
            rw [if_neg hnz, if_neg hnz]
            exact hff l (by rw [htr]; exact hl)
        have hnd' : ((((p :: ps).getD (choice k % (p :: ps).length) p) :: tr).map (·.id) ++
            ((p :: ps).eraseIdx (choice k % (p :: ps).length)).map (·.id)).Nodup := by
          have hmapperm := List.Perm.append_left (tr.map (·.id)) (hperm.map (·.id))
          exact (hmapperm.trans List.perm_middle).nodup hnd
        have hrec := ih (k + 1) ((p :: ps).eraseIdx (choice k % (p :: ps).length)) (att + 1)
          (if att = 0 then ((p :: ps).getD (choice k % (p :: ps).length) p).aliasName else ffn)
          (if att = 0 then formatFailReason msg else ffr)
          (if att = 0 then msg else le)
          (((p :: ps).getD (choice k % (p :: ps).length) p) :: tr)
          (by omega) (by simp [hatt]) hff' hnd'
        exact LoopConcl_step fetch hrec
          (fun x hx => (List.eraseIdx_sublist _ _).subset hx)
          (Nat.succ_ne_zero att)
          (fun _ => if_neg (by omega))
          (List.cons_ne_nil p ps)

/-- If every list in the pool fails and at least one attempt was already
recorded, the loop exhausts, keeping the recorded first error. -/
theorem refreshLoop_allFail (fetch : SourceList → Except String FetchRes) (choice : Nat → Nat) :
    ∀ (fuel k : Nat) (pool : List SourceList) (att : Nat) (ffn ffr le : String)
      (tr : List SourceList),
      pool.length ≤ fuel →
      (∀ x ∈ pool, ∀ res, fetch x ≠ .ok res) →
      att ≠ 0 →
      ∃ trace, refreshLoop fetch choice fuel k pool att ffn ffr le tr = .exhausted le trace := by
  intro fuel
  induction fuel with
  | zero =>
    intro k pool att ffn ffr le tr hfuel hfail hatt
    have hpool : pool = [] := List.length_eq_zero.mp (Nat.le_zero.mp hfuel)
    subst hpool
    exact ⟨tr.reverse, rfl⟩
  | succ fuel ih =>
    intro k pool att ffn ffr le tr hfuel hfail hatt
    obtain ⟨n, rfl⟩ : ∃ n, att = n + 1 := by
      obtain ⟨n, hn⟩ := Nat.exists_eq_succ_of_ne_zero hatt
      exact ⟨n, hn⟩
    match pool with
    | [] => exact ⟨tr.reverse, rfl⟩
    | p :: ps =>
      simp only [refreshLoop]
      have hilt : choice k % (p :: ps).length < (p :: ps).length :=
        Nat.mod_lt _ (Nat.succ_pos ps.length)
      have hget : (p :: ps).getD (choice k % (p :: ps).length) p =
          (p :: ps).get ⟨choice k % (p :: ps).length, hilt⟩ := by
        rw [List.getD_eq_getElem _ _ hilt, List.get_eq_getElem]
      have hmem : (p :: ps).getD (choice k % (p :: ps).length) p ∈ (p :: ps) := by
        rw [hget]; exact List.get_mem _ _ _
      obtain ⟨m, hm⟩ := except_error_of_not_ok (hfail _ hmem)
      rw [hm]
      have hlen : ((p :: ps).eraseIdx (choice k % (p :: ps).length)).length + 1 =
          (p :: ps).length := List.length_eraseIdx_add_one hilt
      exact ih (k + 1) ((p :: ps).eraseIdx (choice k % (p :: ps).length)) (n + 2)
        _ _ le _ (by omega)
        (fun x hx => hfail x ((List.eraseIdx_sublist _ _).subset hx))
        (Nat.succ_ne_zero _)

/-- The selection pool is nonempty when the available pool is. -/
theorem selectionPoolFor_ne_nil (cfg : ConfigData) (slotId : String) (slot : CatalogSlot)
    (h : availableListsFor cfg slot ≠ []) : selectionPoolFor cfg slotId slot ≠ [] := by
  by_cases hc : (candidatesFor cfg slotId slot).isEmpty = true
  · rw [selectionPoolFor, if_pos hc]; exact h
  · rw [selectionPoolFor, if_neg hc]
    intro he
    exact hc (by simp [he])

/-- The available pool is nonempty when the selection pool is. -/
theorem availableListsFor_ne_nil (cfg : ConfigData) (slotId : String) (slot : CatalogSlot)
    (h : selectionPoolFor cfg slotId slot ≠ []) : availableListsFor cfg slot ≠ [] := by
  intro hav
  apply h
  have hcand : candidatesFor cfg slotId slot = [] := by
    have := List.filter_sublist (l := availableListsFor cfg slot)
      (p := fun l =>
        !((activeListIdsFor cfg slotId).contains l.id) &&
        !(match truthyStr l.group with
          | some g => (activeGroupsFor cfg slotId).contains g
          | none => false))
    rw [candidatesFor]
    exact List.eq_nil_of_sublist_nil (hav ▸ this)
  simp [selectionPoolFor, hcand, hav]

/-- The selection pool is a sublist of the configured lists. -/
theorem selectionPoolFor_sublist (cfg : ConfigData) (slotId : String) (slot : CatalogSlot) :
    List.Sublist (selectionPoolFor cfg slotId slot) cfg.lists := by
  have h1 : List.Sublist (availableListsFor cfg slot) cfg.lists := List.filter_sublist _
  have h2 : List.Sublist (candidatesFor cfg slotId slot) (availableListsFor cfg slot) :=
    List.filter_sublist _
  by_cases hc : (candidatesFor cfg slotId slot).isEmpty = true
  · rw [selectionPoolFor, if_pos hc]; exact h1
  · rw [selectionPoolFor, if_neg hc]; exact h2.trans h1

/-- Unique list ids carry over to the selection pool. -/
theorem selectionPoolFor_nodup (cfg : ConfigData) (slotId : String) (slot : CatalogSlot)
    (h : (cfg.lists.map (·.id)).Nodup) :
    ((selectionPoolFor cfg slotId slot).map (·.id)).Nodup :=
  List.Nodup.sublist ((selectionPoolFor_sublist cfg slotId slot).map _) h

/-- On success the loop's chosen list comes from the pool and its fetch
succeeded (no side conditions needed). -/
theorem refreshLoop_success_basic (fetch : SourceList → Except String FetchRes)
    (choice : Nat → Nat) :
    ∀ (fuel k : Nat) (pool : List SourceList) (att : Nat) (ffn ffr le : String)
      (tr : List SourceList) (chosen : SourceList) (res : FetchRes) (att' : Nat)
      (ffn' ffr' : String) (trace : List SourceList),
      refreshLoop fetch choice fuel k pool att ffn ffr le tr =
        .success chosen res att' ffn' ffr' trace →
      chosen ∈ pool ∧ fetch chosen = .ok res := by
  intro fuel
  induction fuel with
  | zero =>
    intro k pool att ffn ffr le tr chosen res att' ffn' ffr' trace h
    exact absurd h (by simp [refreshLoop])
  | succ fuel ih =>
    intro k pool att ffn ffr le tr chosen res att' ffn' ffr' trace h
    match pool with
    | [] => exact absurd h (by simp [refreshLoop])
    | p :: ps =>
      simp only [refreshLoop] at h
      have hilt : choice k % (p :: ps).length < (p :: ps).length :=
        Nat.mod_lt _ (Nat.succ_pos ps.length)
      have hget : (p :: ps).getD (choice k % (p :: ps).length) p =
          (p :: ps).get ⟨choice k % (p :: ps).length, hilt⟩ := by
        rw [List.getD_eq_getElem _ _ hilt, List.get_eq_getElem]
      have hmem : (p :: ps).getD (choice k % (p :: ps).length) p ∈ (p :: ps) := by
        rw [hget]; exact List.get_mem _ _ _
      cases hfetch : fetch ((p :: ps).getD (choice k % (p :: ps).length) p) with
      | ok res0 =>
        rw [hfetch] at h
        simp only [LoopResult.success.injEq] at h
        obtain ⟨rfl, rfl, -, -, -, -⟩ := h
        exact ⟨hmem, hfetch⟩
      | error msg =>
        rw [hfetch] at h
        have := ih (k + 1) ((p :: ps).eraseIdx (choice k % (p :: ps).length)) (att + 1)
          _ _ _ _ chosen res att' ffn' ffr' trace h
        exact ⟨(List.eraseIdx_sublist _ _).subset this.1, this.2⟩

/-- Committed-state characterisation of a successful `refreshSlot`: the
chosen list comes from the selection pool, its fetch produced the committed
items, and the slot found by id is updated with the new selection (header
first), after which the configuration is persisted. -/
theorem refreshSlot_ok_spec (fetch : SourceList → Except String FetchRes)
    (choice : Nat → Nat) (now : Nat) (cfg : ConfigData) (slotId : String)
    (slot : CatalogSlot) (r : RefreshSuccess)
    (hfind : cfg.slots.find? (fun s => s.id == slotId) = some slot)
    (hres : (refreshSlot fetch choice now cfg slotId).result = .ok r) :
    ∃ chosen items,
      chosen ∈ selectionPoolFor cfg slotId slot ∧
      fetch chosen = .ok ⟨items, r.listName⟩ ∧
      (refreshSlot fetch choice now cfg slotId).config =
        { cfg with slots := updateFirstSlot cfg.slots slotId (fun s => { s with
            currentSelection := some
              { name := r.listName
                sourceType := chosen.type
                sourceId := some chosen.id
                items := createHeaderItem slot r.listName now :: items } }) } ∧
      (refreshSlot fetch choice now cfg slotId).saved = true := by
  unfold refreshSlot at hres ⊢
  rw [hfind] at hres ⊢
  simp only at hres ⊢
  cases hav : (availableListsFor cfg slot).isEmpty with
  | true =>
    rw [hav, if_pos rfl] at hres
    simp at hres
  | false =>
    rw [hav] at hres
    rw [if_neg Bool.false_ne_true] at hres ⊢
    cases hloop : refreshLoop fetch choice (selectionPoolFor cfg slotId slot).length 0
        (selectionPoolFor cfg slotId slot) 0 "" "" "" [] with
    | success chosen res att' ffn' ffr' trace =>
      rw [hloop] at hres
      simp only [RefreshResult.ok.injEq] at hres
      obtain ⟨hbasic1, hbasic2⟩ := refreshLoop_success_basic fetch choice _ _ _ _ _ _ _ _
        chosen res att' ffn' ffr' trace hloop
      subst hres
      exact ⟨chosen, res.items, hbasic1, hbasic2, rfl, rfl⟩
    | exhausted lastError trace =>
      rw [hloop] at hres
      simp at hres

/-- When `refreshSlot` does not succeed, the configuration is untouched and
nothing is persisted. -/
theorem refreshSlot_not_ok (fetch : SourceList → Except String FetchRes)
    (choice : Nat → Nat) (now : Nat) (cfg : ConfigData) (slotId : String)
    (h : ∀ r, (refreshSlot fetch choice now cfg slotId).result ≠ .ok r) :
    (refreshSlot fetch choice now cfg slotId).config = cfg ∧
    (refreshSlot fetch choice now cfg slotId).saved = false := by
  unfold refreshSlot at h ⊢
  simp only at h ⊢
  cases hfind : cfg.slots.find? (fun s => s.id == slotId) with
  | none => exact ⟨rfl, rfl⟩
  | some slot =>
    rw [hfind] at h
    simp only at h ⊢
    cases hav : (availableListsFor cfg slot).isEmpty with
    | true => exact ⟨rfl, rfl⟩
    | false =>
      rw [hav] at h
      rw [if_neg Bool.false_ne_true] at h
      cases hloop : refreshLoop fetch choice (selectionPoolFor cfg slotId slot).length 0
          (selectionPoolFor cfg slotId slot) 0 "" "" "" [] with
      | success chosen res att' ffn' ffr' trace =>
        rw [hloop] at h
        exact absurd rfl (h _)
      | exhausted lastError trace => exact ⟨rfl, rfl⟩

instance (cfg : ConfigData) : Decidable (ExclusiveInv cfg) := by
  unfold ExclusiveInv
  infer_instance

instance (cfg : ConfigData) : Decidable (NoSelections cfg) := by
  unfold NoSelections
  infer_instance

/-- `getD` with the head as fallback always returns a pool member. -/
theorem getD_cons_mem {α : Type} (p : α) (ps : List α) (i : Nat) :
    (p :: ps).getD i p ∈ (p :: ps) := by
  by_cases h : i < (p :: ps).length
  · rw [List.getD_eq_getElem _ _ h]
    exact List.getElem_mem h
  · rw [List.getD_eq_default _ _ (Nat.le_of_not_lt h)]
    exact List.mem_cons_self p ps

/-- C2 (amended): when the whole selection pool fails, `refreshSlot` leaves
the configuration untouched, persists nothing, and reports the first
attempt's error message (with the fixed fallback text when that message is
empty). -/
theorem refreshSlot_exhaustion_behavior (fetch : SourceList → Except String FetchRes)
    (choice : Nat → Nat) (now : Nat) (cfg : ConfigData) (slotId : String)
    (slot : CatalogSlot) (l0 : SourceList) (m : String)
    (hfind : cfg.slots.find? (fun s => s.id == slotId) = some slot)
    (hfail : ∀ l ∈ selectionPoolFor cfg slotId slot, ∀ res, fetch l ≠ .ok res)
    (hfirst : (selectionPoolFor cfg slotId slot)[choice 0 %
      (selectionPoolFor cfg slotId slot).length]? = some l0)
    (hm : fetch l0 = .error m) :
    (refreshSlot fetch choice now cfg slotId).config = cfg ∧
    (refreshSlot fetch choice now cfg slotId).saved = false ∧
    (refreshSlot fetch choice now cfg slotId).result =
      .failed (if m = "" then "All lists failed" else m) := by
  have hpoolne : selectionPoolFor cfg slotId slot ≠ [] := by
    intro hc
    rw [hc] at hfirst
    simp at hfirst
  have havne : availableListsFor cfg slot ≠ [] := availableListsFor_ne_nil _ _ _ hpoolne
  have hav : (availableListsFor cfg slot).isEmpty = false := by
    rw [List.isEmpty_eq_false]; exact havne
  obtain ⟨p, ps, hcons⟩ := List.exists_cons_of_ne_nil hpoolne
  rw [hcons] at hfirst hfail
  have hrl : (p :: ps).getD (choice 0 % (p :: ps).length) p = l0 := by
    rw [List.getD_eq_getElem?_getD, hfirst]
    rfl
  have hlen : ((p :: ps).eraseIdx (choice 0 % (p :: ps).length)).length + 1 =
      (p :: ps).length :=
    List.length_eraseIdx_add_one (Nat.mod_lt _ (Nat.succ_pos ps.length))
  have hlc : (p :: ps).length = ps.length + 1 := rfl
  obtain ⟨tr, htr⟩ := refreshLoop_allFail fetch choice ps.length 1
    ((p :: ps).eraseIdx (choice 0 % (p :: ps).length)) 1
    l0.aliasName (formatFailReason m) m [l0]
    (by omega)
    (fun x hx => hfail x ((List.eraseIdx_sublist _ _).subset hx))
    one_ne_zero
  have hloop : refreshLoop fetch choice (p :: ps).length 0 (p :: ps) 0 "" "" "" [] =
      .exhausted m tr := by
    show refreshLoop fetch choice (ps.length + 1) 0 (p :: ps) 0 "" "" "" [] = _
    simp only [refreshLoop]
    rw [hrl, hm]
    exact htr
  unfold refreshSlot
  rw [hfind]
  simp only
  rw [hav, if_neg Bool.false_ne_true, hcons, hloop]
  exact ⟨rfl, rfl, rfl⟩

/-- C3: when content-type filtering leaves a nonempty available pool but the
exclusivity filter empties the candidates, `refreshSlot` selects from the
full available pool rather than failing (and succeeds whenever fetches
succeed). -/
theorem refreshSlot_fallback_widening (fetch : SourceList → Except String FetchRes)
    (choice : Nat → Nat) (now : Nat) (cfg : ConfigData) (slotId : String)
    (slot : CatalogSlot)
    (hfind : cfg.slots.find? (fun s => s.id == slotId) = some slot)
    (havne : availableListsFor cfg slot ≠ [])
    (hcand : candidatesFor cfg slotId slot = [])
    (hfetchall : ∀ l ∈ availableListsFor cfg slot, ∃ res, fetch l = .ok res) :
    selectionPoolFor cfg slotId slot = availableListsFor cfg slot ∧
    ∃ r, (refreshSlot fetch choice now cfg slotId).result = .ok r := by
  have hpool : selectionPoolFor cfg slotId slot = availableListsFor cfg slot := by
    simp [selectionPoolFor, hcand]
  refine ⟨hpool, ?_⟩
  have hav : (availableListsFor cfg slot).isEmpty = false := by
    rw [List.isEmpty_eq_false]; exact havne
  have hpoolne : selectionPoolFor cfg slotId slot ≠ [] := hpool ▸ havne
  obtain ⟨p, ps, hcons⟩ := List.exists_cons_of_ne_nil hpoolne
  have hrlmem : (p :: ps).getD (choice 0 % (p :: ps).length) p ∈ availableListsFor cfg slot := by
    rw [← hpool, hcons]
    exact getD_cons_mem p ps _
  obtain ⟨res, hres⟩ := hfetchall _ hrlmem
  have hloop : refreshLoop fetch choice (p :: ps).length 0 (p :: ps) 0 "" "" "" [] =
      .success ((p :: ps).getD (choice 0 % (p :: ps).length) p) res 0 "" ""
        [(p :: ps).getD (choice 0 % (p :: ps).length) p] := by
    show refreshLoop fetch choice (ps.length + 1) 0 (p :: ps) 0 "" "" "" [] = _
    simp only [refreshLoop]
    rw [hres]
    rfl
  unfold refreshSlot
  rw [hfind]
  simp only
  rw [hav, if_neg Bool.false_ne_true, hcons, hloop]
  exact ⟨_, rfl⟩

/-- The retry-and-exclude guarantees of one `refreshSlot` outcome: no list
is attempted twice, and a success after at least one failure reports the
first failed list's alias and categorised reason. -/
def RetryProps (fetch : SourceList → Except String FetchRes) (o : RefreshOutcome) : Prop :=
  ((o.trace.map (·.id)).Nodup) ∧
  (∀ r, o.result = .ok r →
    (r.retried = decide (1 < o.trace.length)) ∧
    (∀ l, o.trace.head? = some l → 1 < o.trace.length →
      r.failedListName = l.aliasName ∧
      ∃ m, fetch l = .error m ∧ r.failReason = formatFailReason m))

/-- C4: within one `refreshSlot` call no list is attempted twice; when the
call eventually succeeds after at least one failure, the result reports
`retried = true` together with the first failed list's alias and the
categorised reason for its error, and the categorisation is the ordered
string-match chain of `formatFailReason`. -/
theorem refreshSlot_retry_exclude_and_reason (fetch : SourceList → Except String FetchRes)
    (choice : Nat → Nat) (now : Nat) (cfg : ConfigData) (slotId : String)
    (slot : CatalogSlot)
    (hfind : cfg.slots.find? (fun s => s.id == slotId) = some slot)
    (hnodup : (cfg.lists.map (·.id)).Nodup) :
    RetryProps fetch (refreshSlot fetch choice now cfg slotId) ∧
    (∀ m, jsIncludes m "404" = true → formatFailReason m = "not found") ∧
    (∀ m, jsIncludes m "404" = false →
      (jsIncludes m "401" = true ∨ jsIncludes m "403" = true) →
      formatFailReason m = "access denied") ∧
    (∀ m, jsIncludes m "404" = false → jsIncludes m "401" = false →
      jsIncludes m "403" = false → jsIncludes m "empty" = true →
      formatFailReason m = "was empty") ∧
    (∀ m, jsIncludes m "404" = false → jsIncludes m "401" = false →
      jsIncludes m "403" = false → jsIncludes m "empty" = false →
      jsIncludes m "Missing" = true → formatFailReason m = "invalid config") ∧
    (∀ m, jsIncludes m "404" = false → jsIncludes m "401" = false →
      jsIncludes m "403" = false → jsIncludes m "empty" = false →
      jsIncludes m "Missing" = false → formatFailReason m = "unreachable") := by
  refine ⟨?_, ?_, ?_, ?_, ?_, ?_⟩
  case refine_2 => intro m h; simp [formatFailReason, h]
  case refine_3 =>
    intro m h1 h2
    rcases h2 with h2 | h2 <;> simp [formatFailReason, h1, h2]
  case refine_4 => intro m h1 h2 h3 h4; simp [formatFailReason, h1, h2, h3, h4]
  case refine_5 => intro m h1 h2 h3 h4 h5; simp [formatFailReason, h1, h2, h3, h4, h5]
  case refine_6 => intro m h1 h2 h3 h4 h5; simp [formatFailReason, h1, h2, h3, h4, h5]
  unfold refreshSlot
  rw [hfind]
  simp only
  cases hav : (availableListsFor cfg slot).isEmpty with
  | true =>
    exact ⟨List.nodup_nil, fun r hr => absurd hr (by simp)⟩
  | false =>
    rw [if_neg Bool.false_ne_true]
    have hspec := refreshLoop_spec fetch choice (selectionPoolFor cfg slotId slot).length 0
      (selectionPoolFor cfg slotId slot) 0 "" "" "" [] (Nat.le_refl _) rfl
      (fun l h => absurd h (by simp))
      (by simpa using selectionPoolFor_nodup cfg slotId slot hnodup)
    cases hloop : refreshLoop fetch choice (selectionPoolFor cfg slotId slot).length 0
        (selectionPoolFor cfg slotId slot) 0 "" "" "" [] with
    | success chosen res att' ffn' ffr' trace =>
      rw [hloop] at hspec
      obtain ⟨hIn, hFetch, hLen, hNodup, hZero, hNz⟩ := hspec
      simp only [RetryProps]
      refine ⟨hNodup, ?_⟩
      intro r hr
      simp only [RefreshResult.ok.injEq] at hr
      subst hr
      refine ⟨decide_eq_decide.mpr (by omega), ?_⟩
      intro l hl hlen
      have hnz : att' ≠ 0 := by omega
      obtain ⟨hffn, m, hm, hffr⟩ := hNz hnz l hl
      exact ⟨hffn, m, hm, hffr⟩
    | exhausted lastError trace =>
      rw [hloop] at hspec
      exact ⟨hspec.1, fun r hr => absurd hr (by simp)⟩

/-- C5: every selection committed by a successful `refreshSlot` stores, for
the slot found by id, an item sequence of length at least one whose first
element is the synthetic header (id prefixed with `shufflist_header_` and
embedding the slot id, name equal to the resolved list name, description
`Currently displaying: {name}`), with the fetched content items occupying
the positions after it. -/
theorem refreshSlot_header_invariant (fetch : SourceList → Except String FetchRes)
    (choice : Nat → Nat) (now : Nat) (cfg : ConfigData) (slotId : String)
    (slot : CatalogSlot) (r : RefreshSuccess)
    (hfind : cfg.slots.find? (fun s => s.id == slotId) = some slot)
    (hres : (refreshSlot fetch choice now cfg slotId).result = .ok r) :
    ∃ chosen items,
      chosen ∈ selectionPoolFor cfg slotId slot ∧
      fetch chosen = .ok ⟨items, r.listName⟩ ∧
      (refreshSlot fetch choice now cfg slotId).config =
        { cfg with slots := updateFirstSlot cfg.slots slotId (fun s => { s with
            currentSelection := some
              { name := r.listName
                sourceType := chosen.type
                sourceId := some chosen.id
                items := createHeaderItem slot r.listName now :: items } }) } ∧
      1 ≤ (createHeaderItem slot r.listName now :: items).length ∧
      (createHeaderItem slot r.listName now :: items).head? =
        some (createHeaderItem slot r.listName now) ∧
      (createHeaderItem slot r.listName now :: items).tail = items ∧
      (createHeaderItem slot r.listName now).id =
        "shufflist_header_" ++ slot.id ++ "_" ++ toString now ∧
      (createHeaderItem slot r.listName now).name = r.listName ∧
      (createHeaderItem slot r.listName now).description =
        "Currently displaying: " ++ r.listName := by
  obtain ⟨chosen, items, h1, h2, h3, -⟩ :=
    refreshSlot_ok_spec fetch choice now cfg slotId slot r hfind hres
  exact ⟨chosen, items, h1, h2, h3, by simp, rfl, rfl, rfl, rfl, rfl⟩

/-- C10: the synthetic header item always carries `type = "movie"`
(`ContentType.MOVIE`), so even a slot of content type `series` commits a
selection whose first item is typed `movie`. -/
theorem createHeaderItem_movie_type (fetch : SourceList → Except String FetchRes)
    (choice : Nat → Nat) (now : Nat) (cfg : ConfigData) (slotId : String)
    (slot : CatalogSlot) (r : RefreshSuccess)
    (hslotty : slot.type = some ContentType.series)
    (hfind : cfg.slots.find? (fun s => s.id == slotId) = some slot)
    (hres : (refreshSlot fetch choice now cfg slotId).result = .ok r) :
    (∀ (s : CatalogSlot) (listName : String) (n : Nat),
      (createHeaderItem s listName n).type = "movie") ∧
    ∃ (chosen : SourceList) (items : List Item),
      (refreshSlot fetch choice now cfg slotId).config =
        { cfg with slots := updateFirstSlot cfg.slots slotId (fun s => { s with
            currentSelection := some
              { name := r.listName
                sourceType := chosen.type
                sourceId := some chosen.id
                items := createHeaderItem slot r.listName now :: items } }) } ∧
      ctOrMovie slot.type = ContentType.series ∧
      ((createHeaderItem slot r.listName now :: items).head?.map (·.type)) = some "movie" := by
  obtain ⟨chosen, items, -, -, h3, -⟩ :=
    refreshSlot_ok_spec fetch choice now cfg slotId slot r hfind hres
  exact ⟨fun s listName n => rfl, chosen, items, h3, by rw [hslotty]; rfl, rfl⟩

/-- Stable insertion produces a permutation of consing. -/
theorem insertByLen_perm (s : CatalogSlot) :
    ∀ l : List CatalogSlot, List.Perm (insertByLen s l) (s :: l) := by
  intro l
  induction l with
  | nil => exact List.Perm.refl _
  | cons b t ih =>
    rw [insertByLen]
    by_cases h : s.listIds.length < b.listIds.length
    · rw [if_pos h]
    · rw [if_neg h]
      exact (ih.cons b).trans (List.Perm.swap s b t)

/-- The insertion-sort fold permutes its input onto the accumulator. -/
theorem sortSlots_foldl_perm :
    ∀ (l acc : List CatalogSlot),
      List.Perm (l.foldl (fun acc s => insertByLen s acc) acc) (l ++ acc) := by
  intro l
  induction l with
  | nil => intro acc; simp
  | cons a t ih =>
    intro acc
    rw [List.foldl_cons]
    refine (ih (insertByLen a acc)).trans ?_
    refine (List.Perm.append_left t (insertByLen_perm a acc)).trans ?_
    exact List.perm_middle

/-- `sortSlotsByListCount` permutes its input. -/
theorem sortSlotsByListCount_perm (l : List CatalogSlot) :
    List.Perm (sortSlotsByListCount l) l := by
  have h := sortSlots_foldl_perm l []
  rw [List.append_nil] at h
  exact h

/-- Stable insertion preserves sortedness by `listIds.length`. -/
theorem insertByLen_sorted (s : CatalogSlot) :
    ∀ l : List CatalogSlot,
      l.Pairwise (fun a b => a.listIds.length ≤ b.listIds.length) →
      (insertByLen s l).Pairwise (fun a b => a.listIds.length ≤ b.listIds.length) := by
  intro l
  induction l with
  | nil => intro _; simp [insertByLen]
  | cons b t ih =>
    intro hp
    obtain ⟨hb, ht⟩ := List.pairwise_cons.mp hp
    rw [insertByLen]
    by_cases h : s.listIds.length < b.listIds.length
    · rw [if_pos h]
      refine List.pairwise_cons.mpr ⟨?_, hp⟩
      intro x hx
      rcases List.mem_cons.mp hx with rfl | hxt
      · exact Nat.le_of_lt h
      · exact Nat.le_trans (Nat.le_of_lt h) (hb x hxt)
    · rw [if_neg h]
      refine List.pairwise_cons.mpr ⟨?_, ih ht⟩
      intro x hx
      have hx' : x ∈ s :: t := (insertByLen_perm s t).mem_iff.mp hx
      rcases List.mem_cons.mp hx' with rfl | hxt
      · exact Nat.le_of_not_lt h
      · exact hb x hxt

/-- The insertion-sort fold preserves sortedness of the accumulator. -/
theorem sortSlots_foldl_sorted :
    ∀ (l acc : List CatalogSlot),
      acc.Pairwise (fun a b => a.listIds.length ≤ b.listIds.length) →
      (l.foldl (fun acc s => insertByLen s acc) acc).Pairwise
        (fun a b => a.listIds.length ≤ b.listIds.length) := by
  intro l
  induction l with
  | nil => intro acc h; exact h
  | cons a t ih =>
    intro acc h
    rw [List.foldl_cons]
    exact ih _ (insertByLen_sorted a acc h)

/-- The per-slot results of the batch fold come in processing order. -/
theorem foldl_refresh_order (fetch : SourceList → Except String FetchRes)
    (choice : String → Nat → Nat) (now : Nat) :
    ∀ (l : List CatalogSlot) (start : ConfigData × List (String × RefreshResult)),
      ((l.foldl (fun acc slot =>
        let o := refreshSlot fetch (choice slot.id) now acc.1 slot.id
        (o.config, acc.2 ++ [(slot.id, o.result)])) start).2).map Prod.fst =
      start.2.map Prod.fst ++ l.map (·.id) := by
  intro l
  induction l with
  | nil => intro start; simp
  | cons a t ih =>
    intro start
    rw [List.foldl_cons, ih]
    simp

/-- C6 (amended): `refreshAllSlots` processes the slots that have at least
one configured list id in ascending order of `listIds.length` (the raw
number of configured ids, not the type-filtered candidate-pool size): the
result sequence follows a sorted permutation of the valid slots. -/
theorem refreshAllSlots_order_by_listIds (fetch : SourceList → Except String FetchRes)
    (choice : String → Nat → Nat) (now : Nat) (cfg : ConfigData) :
    ((refreshAllSlots fetch choice now cfg).2.map Prod.fst =
      (sortSlotsByListCount (validSlotsOf cfg)).map (·.id)) ∧
    List.Perm (sortSlotsByListCount (validSlotsOf cfg)) (validSlotsOf cfg) ∧
    (sortSlotsByListCount (validSlotsOf cfg)).Pairwise
      (fun a b => a.listIds.length ≤ b.listIds.length) := by
  refine ⟨?_, sortSlotsByListCount_perm _, ?_⟩
  · unfold refreshAllSlots
    rw [foldl_refresh_order]
    simp
  · exact sortSlots_foldl_sorted _ [] List.Pairwise.nil

/-- C7 (amended): the batch of `refreshAllSlots` starts from
`clearValidSlots cfg`, in which every slot with at least one configured
list id has its `currentSelection` cleared, while slots with no configured
list ids keep their previous (possibly stale) selection. -/
theorem refreshAllSlots_clearing (fetch : SourceList → Except String FetchRes)
    (choice : String → Nat → Nat) (now : Nat) (cfg : ConfigData) (s : CatalogSlot)
    (hs : s ∈ cfg.slots) :
    refreshAllSlots fetch choice now cfg =
      (sortSlotsByListCount (validSlotsOf cfg)).foldl (fun acc slot =>
        let o := refreshSlot fetch (choice slot.id) now acc.1 slot.id
        (o.config, acc.2 ++ [(slot.id, o.result)])) (clearValidSlots cfg, []) ∧
    (s.listIds = [] → s ∈ (clearValidSlots cfg).slots) ∧
    (s.listIds ≠ [] →
      { s with currentSelection := none } ∈ (clearValidSlots cfg).slots) := by
  refine ⟨rfl, ?_, ?_⟩
  · intro h
    have hmem := List.mem_map_of_mem
      (fun x : CatalogSlot => if x.listIds.isEmpty then x
        else { x with currentSelection := none }) hs
    simp only [h, List.isEmpty_nil, if_true] at hmem
    exact hmem
  · intro h
    have hmem := List.mem_map_of_mem
      (fun x : CatalogSlot => if x.listIds.isEmpty then x
        else { x with currentSelection := none }) hs
    simp only [List.isEmpty_eq_false.mpr h, if_false, Bool.false_eq_true] at hmem
    exact hmem


/-- C8 (amended): `updateSlot` forces a `refreshSlot` exactly when the
update carries a `listIds` value that no longer contains the current
selection's truthy `sourceId`; in particular a `type` change alone (or any
update without `listIds`) never forces a refresh. -/
theorem updateSlot_refresh_condition (fetch : SourceList → Except String FetchRes)
    (choice : Nat → Nat) (now : Nat) (cfg : ConfigData) (id : String)
    (updates : SlotUpdates) (slot : CatalogSlot)
    (hfind : cfg.slots.find? (fun s => s.id == id) = some slot) :
    ((updateSlot fetch choice now cfg id updates).2.isSome ↔
      (∃ lids, updates.listIds = some lids ∧
        ∃ sel sid, slot.currentSelection = some sel ∧ sel.sourceId = some sid ∧
          sid ≠ "" ∧ lids.contains sid = false)) ∧
    (updates.listIds = none → (updateSlot fetch choice now cfg id updates).2 = none) := by
  obtain ⟨ua, ut, ul⟩ := updates
  unfold updateSlot
  rw [hfind]
  simp only
  cases ul with
  | none =>
    refine ⟨?_, fun _ => ?_⟩
    · cases ua with
      | none => simp
      | some a => by_cases ha : a = "" <;> simp [ha]
    · cases ua with
      | none => simp
      | some a => by_cases ha : a = "" <;> simp [ha]
  | some lids =>
    refine ⟨?_, fun hcontra => absurd hcontra (by simp)⟩
    cases ua with
    | none =>
      cases hcs : slot.currentSelection with
      | none => simp [hcs]
      | some sel =>
        cases hsid : sel.sourceId with
        | none => simp [hcs, hsid]
        | some sid =>
          by_cases hz : sid = ""
          · simp [hcs, hsid, hz]
          · by_cases hc : sid ∈ lids <;> simp [hcs, hsid, hz, hc]
    | some a =>
      by_cases ha : a = ""
      all_goals
        cases hcs : slot.currentSelection with
        | none => simp [ha, hcs]
        | some sel =>
          cases hsid : sel.sourceId with
          | none => simp [ha, hcs, hsid]
          | some sid =>
            by_cases hz : sid = ""
            · simp [ha, hcs, hsid, hz]
            · by_cases hc : sid ∈ lids <;> simp [ha, hcs, hsid, hz, hc]

/-- `find?` skips a prefix on which the predicate fails. -/
theorem find?_append_skip (p : CatalogSlot → Bool) :
    ∀ (l1 l2 : List CatalogSlot), (∀ s ∈ l1, p s = false) →
      (l1 ++ l2).find? p = l2.find? p := by
  intro l1
  induction l1 with
  | nil => intro l2 _; rfl
  | cons a t ih =>
    intro l2 h
    rw [List.cons_append, List.find?_cons_of_neg _ (by simp [h a (List.mem_cons_self a t)])]
    exact ih l2 (fun s hs => h s (List.mem_cons_of_mem a hs))

/-- `updateFirstSlot` skips a prefix with no matching id. -/
theorem updateFirstSlot_append_skip (sid : String) (f : CatalogSlot → CatalogSlot) :
    ∀ (l1 l2 : List CatalogSlot), (∀ s ∈ l1, (s.id == sid) = false) →
      updateFirstSlot (l1 ++ l2) sid f = l1 ++ updateFirstSlot l2 sid f := by
  intro l1
  induction l1 with
  | nil => intro l2 _; rfl
  | cons a t ih =>
    intro l2 h
    rw [List.cons_append, updateFirstSlot, h a (List.mem_cons_self a t)]
    simp only [Bool.false_eq_true, if_false, List.cons_append]
    rw [ih l2 (fun s hs => h s (List.mem_cons_of_mem a hs))]

/-- C9 (amended): `addSlot` creates a slot whose `listIds` default to the
ids of all configured lists of the matching content type and immediately
invokes `refreshSlot` on it; the slot ends with a `currentSelection`
whenever that refresh succeeds, but keeps none when there are no matching
lists or every fetch fails. -/
theorem addSlot_spec (fetch : SourceList → Except String FetchRes) (choice : Nat → Nat)
    (now : Nat) (cfg : ConfigData) (aliasName : String) (ty : ContentType)
    (hfresh : ∀ s ∈ cfg.slots, s.id ≠ toString now) :
    ((addSlot fetch choice now cfg aliasName ty).2 =
      refreshSlot fetch choice now
        { cfg with slots := cfg.slots ++ [newSlotFor cfg aliasName ty now] }
        (toString now)) ∧
    (∃ s, ((addSlot fetch choice now cfg aliasName ty).1.slots.find?
        (fun x => x.id == toString now)) = some s ∧
      s.listIds = (cfg.lists.filter (fun l => ctOrMovie l.contentType == ty)).map (·.id) ∧
      (∀ r, (addSlot fetch choice now cfg aliasName ty).2.result = .ok r →
        s.currentSelection ≠ none)) := by
  have hskip : ∀ s ∈ cfg.slots, (s.id == toString now) = false := by
    intro s hs
    simpa using hfresh s hs
  have hfind1 : ({ cfg with slots := cfg.slots ++ [newSlotFor cfg aliasName ty now] }
      : ConfigData).slots.find? (fun x => x.id == toString now) =
        some (newSlotFor cfg aliasName ty now) := by
    simp only
    rw [find?_append_skip _ _ _ hskip]
    simp [List.find?, newSlotFor]
  refine ⟨rfl, ?_⟩
  by_cases hok : ∃ r, ((addSlot fetch choice now cfg aliasName ty).2).result = .ok r
  · obtain ⟨r, hr⟩ := hok
    obtain ⟨chosen, items, -, -, hcfg, -⟩ :=
      refreshSlot_ok_spec fetch choice now _ (toString now) _ r hfind1 hr
    refine Exists.intro
      { newSlotFor cfg aliasName ty now with
        currentSelection := some
          ⟨r.listName, chosen.type, some chosen.id,
            createHeaderItem (newSlotFor cfg aliasName ty now) r.listName now :: items⟩ }
      ⟨?_, ?_, ?_⟩
    · show ((refreshSlot fetch choice now _ (toString now)).config.slots.find?
        (fun x => x.id == toString now)) = _
      rw [hcfg]
      simp only
      rw [updateFirstSlot_append_skip _ _ _ _ hskip]
      rw [find?_append_skip _ _ _ hskip]
      rw [updateFirstSlot]
      simp [List.find?, newSlotFor]
    · rfl
    · intro r' _
      simp
  · obtain ⟨hcfg, -⟩ := refreshSlot_not_ok fetch choice now _ (toString now)
      (fun r hr => hok ⟨r, hr⟩)
    refine ⟨newSlotFor cfg aliasName ty now, ?_, rfl, ?_⟩
    · show ((refreshSlot fetch choice now _ (toString now)).config.slots.find?
        (fun x => x.id == toString now)) = _
      rw [hcfg]
      exact hfind1
    · intro r' hr'
      exact absurd ⟨r', hr'⟩ hok

/-- Elements of `updateFirstSlot` with unique ids: either the updated first
match, or an untouched slot with a different id. -/
theorem mem_updateFirstSlot_of_nodup (sid : String) (f : CatalogSlot → CatalogSlot) :
    ∀ (slots : List CatalogSlot) (slot : CatalogSlot),
      (slots.map (·.id)).Nodup →
      slots.find? (fun s => s.id == sid) = some slot →
      ∀ x ∈ updateFirstSlot slots sid f, x = f slot ∨ (x ∈ slots ∧ x.id ≠ sid) := by
  intro slots
  induction slots with
  | nil => intro slot _ hfind; simp [List.find?] at hfind
  | cons a rest ih =>
    intro slot hnodup hfind x hx
    rw [List.map_cons] at hnodup
    cases ha : (a.id == sid) with
    | true =>
      have haeq : a.id = sid := by simpa using ha
      have hslot : slot = a := by
        have hfc : List.find? (fun s => s.id == sid) (a :: rest) = some a :=
          List.find?_cons_of_pos _ (p := fun s : CatalogSlot => s.id == sid) ha
        rw [hfc] at hfind
        exact (Option.some.inj hfind).symm
      rw [updateFirstSlot, if_pos ha] at hx
      rcases List.mem_cons.mp hx with rfl | hxrest
      · exact Or.inl (by rw [hslot])
      · refine Or.inr ⟨List.mem_cons_of_mem a hxrest, ?_⟩
        intro hxid
        exact (List.nodup_cons.mp hnodup).1
          (by rw [haeq, ← hxid]; exact List.mem_map_of_mem _ hxrest)
    | false =>
      rw [List.find?_cons_of_neg _ (by simp [ha])] at hfind
      rw [updateFirstSlot, if_neg (by simp [ha])] at hx
      rcases List.mem_cons.mp hx with heq | hxrest
      · refine Or.inr ⟨?_, ?_⟩
        · rw [heq]; exact List.mem_cons_self a rest
        · rw [heq]; simpa using ha
      · rcases ih slot (List.nodup_cons.mp hnodup).2 hfind x hxrest with h | ⟨h1, h2⟩
        · exact Or.inl h
        · exact Or.inr ⟨List.mem_cons_of_mem a h1, h2⟩

/-- Slot conflict is symmetric. -/
theorem slotsConflict_symm (cfg : ConfigData) (s t : CatalogSlot) :
    slotsConflict cfg s t = slotsConflict cfg t s := by
  unfold slotsConflict
  cases s.currentSelection.bind (·.sourceId) with
  | none => cases t.currentSelection.bind (·.sourceId) <;> rfl
  | some a =>
    cases t.currentSelection.bind (·.sourceId) with
    | none => rfl
    | some b =>
      simp only
      have h1 : (a == b) = (b == a) := by
        by_cases h : a = b
        · simp [h]
        · simp [h, Ne.symm h]
      rw [h1]
      congr 1
      cases listGroupOf cfg a with
      | none => cases listGroupOf cfg b <;> rfl
      | some ga =>
        cases listGroupOf cfg b with
        | none => rfl
        | some gb =>
          simp only
          by_cases hg : ga = gb
          · simp [hg]
          · rw [show (ga == gb) = false from by simpa using hg,
              show (gb == ga) = false from by simpa using Ne.symm hg]
            simp

/-- C1 (amended): a successful `refreshSlot` whose exclusivity filter left a
non-empty candidate pool (so the fallback to the unfiltered pool was not
taken) commits a selection that conflicts with no other slot: no other slot
holds the same source list as its active selection, nor a source list
sharing the same non-empty group.  The invariant stated over all reachable
states fails on the fallback path (see the counterexample). -/
theorem refreshSlot_no_fallback_exclusive (fetch : SourceList → Except String FetchRes)
    (choice : Nat → Nat) (now : Nat) (cfg : ConfigData) (slotId : String)
    (slot : CatalogSlot) (r : RefreshSuccess)
    (hfind : cfg.slots.find? (fun s => s.id == slotId) = some slot)
    (hlists : (cfg.lists.map (·.id)).Nodup)
    (hslots : (cfg.slots.map (·.id)).Nodup)
    (hids : ∀ l ∈ cfg.lists, l.id ≠ "")
    (hcand : candidatesFor cfg slotId slot ≠ [])
    (hres : (refreshSlot fetch choice now cfg slotId).result = .ok r) :
    ∀ s ∈ (refreshSlot fetch choice now cfg slotId).config.slots,
      ∀ t ∈ (refreshSlot fetch choice now cfg slotId).config.slots,
        s.id = slotId → t.id ≠ slotId →
        slotsConflict (refreshSlot fetch choice now cfg slotId).config s t = false ∧
        slotsConflict (refreshSlot fetch choice now cfg slotId).config t s = false := by
  obtain ⟨chosen, items, hchosen, hfetch2, hcfg, -⟩ :=
    refreshSlot_ok_spec fetch choice now cfg slotId slot r hfind hres
  have hcandE : (candidatesFor cfg slotId slot).isEmpty = false := by
    rw [List.isEmpty_eq_false]
    exact hcand
  have hpool : selectionPoolFor cfg slotId slot = candidatesFor cfg slotId slot := by
    rw [selectionPoolFor, hcandE, if_neg Bool.false_ne_true]
  rw [hpool] at hchosen
  unfold candidatesFor at hchosen
  obtain ⟨hav, hpred⟩ := List.mem_filter.mp hchosen
  obtain ⟨hp1, hp2⟩ := (Bool.and_eq_true _ _).mp hpred
  have hcontains : (activeListIdsFor cfg slotId).contains chosen.id = false := by
    simpa using hp1
  have hmatch : (match truthyStr chosen.group with
      | some g => (activeGroupsFor cfg slotId).contains g
      | none => false) = false := by
    simpa using hp2
  have hchosenLists : chosen ∈ cfg.lists := by
    unfold availableListsFor at hav
    exact (List.filter_sublist _).subset hav
  have hfindchosen : cfg.lists.find? (fun y => y.id == chosen.id) = some chosen :=
    find?_id_of_nodup cfg.lists hlists chosen hchosenLists
  have hchosenId : chosen.id ≠ "" := hids chosen hchosenLists
  have hslotid : slot.id = slotId := by simpa using List.find?_some hfind
  have hlg1 : listGroupOf cfg chosen.id = chosen.group := by
    unfold listGroupOf
    rw [hfindchosen]
    rfl
  intro s hs t ht hsid htid
  rw [hcfg] at hs ht
  simp only at hs ht
  have hsf : s = { slot with
      currentSelection := some
        { name := r.listName
          sourceType := chosen.type
          sourceId := some chosen.id
          items := createHeaderItem slot r.listName now :: items } } := by
    rcases mem_updateFirstSlot_of_nodup slotId _ cfg.slots slot hslots hfind s hs with h | ⟨-, hne⟩
    · exact h
    · exact absurd hsid hne
  have htmem : t ∈ cfg.slots := by
    rcases mem_updateFirstSlot_of_nodup slotId _ cfg.slots slot hslots hfind t ht with h | ⟨hmem, -⟩
    · refine absurd ?_ htid
      rw [h]
      exact hslotid
    · exact hmem
  rw [hcfg]
  have hlgeq : ∀ x, listGroupOf { cfg with
      slots := updateFirstSlot cfg.slots slotId (fun s => { s with
        currentSelection := some
          { name := r.listName
            sourceType := chosen.type
            sourceId := some chosen.id
            items := createHeaderItem slot r.listName now :: items } }) } x =
      listGroupOf cfg x := fun _ => rfl
  suffices hmain : slotsConflict { cfg with
      slots := updateFirstSlot cfg.slots slotId (fun s => { s with
        currentSelection := some
          { name := r.listName
            sourceType := chosen.type
            sourceId := some chosen.id
            items := createHeaderItem slot r.listName now :: items } }) } s t = false by
    refine ⟨hmain, ?_⟩
    rw [slotsConflict_symm]
    exact hmain
  rw [hsf]
  unfold slotsConflict
  simp only [hlgeq]
  cases hb : t.currentSelection.bind (·.sourceId) with
  | none => rfl
  | some b =>
    show (chosen.id == b ||
        (match listGroupOf cfg chosen.id, listGroupOf cfg b with
         | some ga, some gb => decide (ga ≠ "") && ga == gb
         | _, _ => false)) = false
    rw [hlg1]
    by_cases hbz : b = ""
    · subst hbz
      have hid0 : (chosen.id == "") = false := by simpa using hchosenId
      have hfe : cfg.lists.find? (fun l => l.id == "") = none := by
        rw [List.find?_eq_none]
        intro l hl
        simp [hids l hl]
      have hlgb : listGroupOf cfg "" = none := by
        unfold listGroupOf
        rw [hfe]
        rfl
      rw [hid0, hlgb]
      cases chosen.group <;> simp
    · have hactive : activeSourceId t = some b := by
        unfold activeSourceId
        rw [hb]
        show (if b = "" then (none : Option String) else some b) = some b
        rw [if_neg hbz]
      have htfilter : t ∈ cfg.slots.filter
          (fun sl => sl.id != slotId && (activeSourceId sl).isSome) := by
        rw [List.mem_filter]
        refine ⟨htmem, ?_⟩
        simp [htid, hactive]
      have hpair : (((activeSourceId t).getD ""),
          (cfg.lists.find? (fun l => l.id == (activeSourceId t).getD "")).bind (·.group)) ∈
          otherActiveFor cfg slotId := by
        unfold otherActiveFor
        exact List.mem_map_of_mem _ htfilter
      rw [hactive] at hpair
      simp only [Option.getD_some] at hpair
      have hbin : b ∈ activeListIdsFor cfg slotId := by
        unfold activeListIdsFor
        exact List.mem_map_of_mem (fun x => x.1) hpair
      have hnotin : chosen.id ∉ activeListIdsFor cfg slotId := by
        intro hmem
        rw [show (activeListIdsFor cfg slotId).contains chosen.id = true from by
          simpa using hmem] at hcontains
        exact Bool.noConfusion hcontains
      have hidneq : (chosen.id == b) = false := by
        have : chosen.id ≠ b := fun hcontra => hnotin (hcontra ▸ hbin)
        simpa using this
      have hlg2 : (cfg.lists.find? (fun l => l.id == b)).bind (·.group) = listGroupOf cfg b := rfl
      rw [hidneq]
      cases hgc : chosen.group with
      | none =>
        cases listGroupOf cfg b <;> simp
      | some ga =>
        by_cases hgz : ga = ""
        · cases listGroupOf cfg b <;> simp [hgz]
        · have hganot : ga ∉ activeGroupsFor cfg slotId := by
            rw [hgc] at hmatch
            simp only [truthyStr] at hmatch
            rw [if_neg hgz] at hmatch
            simpa using hmatch
          cases hgb : listGroupOf cfg b with
          | none => simp
          | some gb =>
            by_cases hgg : ga = gb
            · exfalso
              apply hganot
              rw [hgg]
              unfold activeGroupsFor
              rw [List.mem_filterMap]
              refine ⟨some gb, ?_, ?_⟩
              · rw [← hlg2] at hgb
                rw [← hgb]
                exact List.mem_map_of_mem (fun x => x.2) hpair
              · show (if gb = "" then (none : Option String) else some gb) = some gb
                rw [if_neg (by rw [← hgg]; exact hgz)]
            · show (false || (decide (ga ≠ "") && ga == gb)) = false
              rw [show (ga == gb) = false from by simpa using hgg]
              simp

/-! ### Concrete instances for the counterexamples and witnesses -/

/-- Settings shared by the concrete configurations. -/
def stdSettings : AppSettings := { refreshIntervalHours := 24, defaultItemLimit := 100 }

/-! #### C1: two slots sharing one list and one group -/

def c1listA : SourceList :=
  { id := "A", aliasName := "List A", type := .defaultList, contentType := some .movie,
    group := some "action", shuffle := false, limit := none }

def c1slot1 : CatalogSlot :=
  { id := "s1", aliasName := "Slot 1", type := some .movie, listIds := ["A"],
    currentSelection := none }

def c1slot2 : CatalogSlot :=
  { id := "s2", aliasName := "Slot 2", type := some .movie, listIds := ["A"],
    currentSelection := none }

def c1cfg0 : ConfigData :=
  { lists := [c1listA], slots := [c1slot1, c1slot2], settings := stdSettings }

def c1fetch : SourceList → Except String FetchRes :=
  fun _ => .ok { items := [], listName := "List A" }

def c1choice : Nat → Nat := fun _ => 0

def c1cfg1 : ConfigData := (refreshSlot c1fetch c1choice 0 c1cfg0 "s1").config

def c1cfg2 : ConfigData := (refreshSlot c1fetch c1choice 0 c1cfg1 "s2").config

/-! C1 witness configuration: a second list with a distinct group keeps the
exclusivity filter non-empty. -/

def c1wlistA : SourceList :=
  { id := "A", aliasName := "List A", type := .defaultList, contentType := some .movie,
    group := some "g", shuffle := false, limit := none }

def c1wlistB : SourceList :=
  { id := "B", aliasName := "List B", type := .defaultList, contentType := some .movie,
    group := some "h", shuffle := false, limit := none }

def c1wslot1 : CatalogSlot :=
  { id := "s1", aliasName := "Slot 1", type := some .movie, listIds := ["A", "B"],
    currentSelection := none }

def c1wsel : Selection :=
  { name := "List A", sourceType := .defaultList, sourceId := some "A", items := [] }

def c1wslot2 : CatalogSlot :=
  { id := "s2", aliasName := "Slot 2", type := some .movie, listIds := ["A", "B"],
    currentSelection := some c1wsel }

def c1wcfg : ConfigData :=
  { lists := [c1wlistA, c1wlistB], slots := [c1wslot1, c1wslot2], settings := stdSettings }

def c1wfetch : SourceList → Except String FetchRes :=
  fun l => .ok { items := [], listName := l.aliasName }

def c1wchoice : Nat → Nat := fun _ => 0

def c1wheader : Item :=
  { id := "shufflist_header_s1_5", type := "movie", name := "List B",
    description := "Currently displaying: List B" }

def c1wselB : Selection :=
  { name := "List B", sourceType := .defaultList, sourceId := some "B",
    items := [c1wheader] }

def c1wslot1r : CatalogSlot :=
  { id := "s1", aliasName := "Slot 1", type := some .movie, listIds := ["A", "B"],
    currentSelection := some c1wselB }

def c1wr : RefreshSuccess :=
  { listName := "List B", retried := false, isEmpty := true, failedListName := "",
    failReason := "" }

/-! #### C2: a pool whose only fetch fails -/

def c2l : SourceList :=
  { id := "L", aliasName := "List L", type := .defaultList, contentType := some .movie,
    group := none, shuffle := false, limit := none }

def c2sel : Selection :=
  { name := "Old", sourceType := .defaultList, sourceId := some "L", items := [] }

def c2slot : CatalogSlot :=
  { id := "s1", aliasName := "Slot 1", type := some .movie, listIds := ["L"],
    currentSelection := some c2sel }

def c2cfg : ConfigData := { lists := [c2l], slots := [c2slot], settings := stdSettings }

def c2fetch : SourceList → Except String FetchRes := fun _ => .error ""

def c2choice : Nat → Nat := fun _ => 0

def c2wfetch : SourceList → Except String FetchRes := fun _ => .error "boom"

/-! #### C3: the only available list is active in the other slot -/

def c3listA : SourceList :=
  { id := "A", aliasName := "List A", type := .defaultList, contentType := some .movie,
    group := none, shuffle := false, limit := none }

def c3sel : Selection :=
  { name := "List A", sourceType := .defaultList, sourceId := some "A", items := [] }

def c3slot1 : CatalogSlot :=
  { id := "s1", aliasName := "Slot 1", type := some .movie, listIds := ["A"],
    currentSelection := none }

def c3slot2 : CatalogSlot :=
  { id := "s2", aliasName := "Slot 2", type := some .movie, listIds := ["A"],
    currentSelection := some c3sel }

def c3cfg : ConfigData :=
  { lists := [c3listA], slots := [c3slot1, c3slot2], settings := stdSettings }

def c3fetch : SourceList → Except String FetchRes :=
  fun _ => .ok { items := [], listName := "List A" }

def c3choice : Nat → Nat := fun _ => 0

/-! #### C4: first pick fails with a 404, the second list succeeds -/

def c4listX : SourceList :=
  { id := "X", aliasName := "List X", type := .defaultList, contentType := some .movie,
    group := none, shuffle := false, limit := none }

def c4listY : SourceList :=
  { id := "Y", aliasName := "List Y", type := .defaultList, contentType := some .movie,
    group := none, shuffle := false, limit := none }

def c4slot : CatalogSlot :=
  { id := "s1", aliasName := "Slot 1", type := some .movie, listIds := ["X", "Y"],
    currentSelection := none }

def c4cfg : ConfigData :=
  { lists := [c4listX, c4listY], slots := [c4slot], settings := stdSettings }

def c4fetch : SourceList → Except String FetchRes := fun l =>
  if l.id = "X" then .error "HTTP 404" else .ok { items := [], listName := "List Y" }

def c4choice : Nat → Nat := fun _ => 0

/-! #### C5: a successful refresh committing one content item -/

def c5listA : SourceList :=
  { id := "A", aliasName := "List A", type := .defaultList, contentType := some .movie,
    group := none, shuffle := false, limit := none }

def c5slot : CatalogSlot :=
  { id := "s1", aliasName := "Slot 1", type := some .movie, listIds := ["A"],
    currentSelection := none }

def c5cfg : ConfigData := { lists := [c5listA], slots := [c5slot], settings := stdSettings }

def c5item : Item := { id := "tt1", type := "movie", name := "Film", description := "d" }

def c5fetch : SourceList → Except String FetchRes :=
  fun _ => .ok { items := [c5item], listName := "List A" }

def c5choice : Nat → Nat := fun _ => 0

def c5r : RefreshSuccess :=
  { listName := "List A", retried := false, isEmpty := false, failedListName := "",
    failReason := "" }

/-! #### C6: more configured ids but a smaller type-filtered pool -/

def c6mk (i : String) (ct : ContentType) : SourceList :=
  { id := i, aliasName := "List " ++ i, type := .defaultList, contentType := some ct,
    group := none, shuffle := false, limit := none }

def c6slotA : CatalogSlot :=
  { id := "A", aliasName := "Slot A", type := some .movie, listIds := ["1", "2", "3"],
    currentSelection := none }

def c6slotB : CatalogSlot :=
  { id := "B", aliasName := "Slot B", type := some .movie, listIds := ["4", "5"],
    currentSelection := none }

def c6cfg : ConfigData :=
  { lists := [c6mk "1" .movie, c6mk "2" .series, c6mk "3" .series,
      c6mk "4" .movie, c6mk "5" .movie],
    slots := [c6slotA, c6slotB], settings := stdSettings }

def c6fetch : SourceList → Except String FetchRes :=
  fun l => .ok { items := [], listName := l.aliasName }

def c6choice : String → Nat → Nat := fun _ _ => 0

/-! #### C7: a slot with no configured lists keeps a stale selection -/

def c7listA : SourceList :=
  { id := "A", aliasName := "List A", type := .defaultList, contentType := some .movie,
    group := none, shuffle := false, limit := none }

def c7listB : SourceList :=
  { id := "B", aliasName := "List B", type := .defaultList, contentType := some .movie,
    group := none, shuffle := false, limit := none }

def c7sel : Selection :=
  { name := "List A", sourceType := .defaultList, sourceId := some "A", items := [] }

def c7slotE : CatalogSlot :=
  { id := "e", aliasName := "Slot E", type := some .movie, listIds := [],
    currentSelection := some c7sel }

def c7slotF : CatalogSlot :=
  { id := "f", aliasName := "Slot F", type := some .movie, listIds := ["A", "B"],
    currentSelection := some c7sel }

def c7cfg : ConfigData :=
  { lists := [c7listA, c7listB], slots := [c7slotE, c7slotF], settings := stdSettings }

def c7fetch : SourceList → Except String FetchRes :=
  fun l => .ok { items := [], listName := l.aliasName }

def c7choice : String → Nat → Nat := fun _ _ => 0

/-! #### C8: an update that changes only the content type -/

def c8listA : SourceList :=
  { id := "A", aliasName := "List A", type := .defaultList, contentType := some .movie,
    group := none, shuffle := false, limit := none }

def c8sel : Selection :=
  { name := "List A", sourceType := .defaultList, sourceId := some "A", items := [] }

def c8slot : CatalogSlot :=
  { id := "s1", aliasName := "Slot 1", type := some .movie, listIds := ["A"],
    currentSelection := some c8sel }

def c8cfg : ConfigData := { lists := [c8listA], slots := [c8slot], settings := stdSettings }

def c8upd : SlotUpdates := { aliasName := none, type := some .series, listIds := none }

def c8fetch : SourceList → Except String FetchRes :=
  fun l => .ok { items := [], listName := l.aliasName }

def c8choice : Nat → Nat := fun _ => 0

/-! #### C9: adding a slot when no list matches -/

def c9cfg : ConfigData := { lists := [], slots := [], settings := stdSettings }

def c9fetch : SourceList → Except String FetchRes :=
  fun l => .ok { items := [], listName := l.aliasName }

def c9choice : Nat → Nat := fun _ => 0

/-! #### C10: a series-typed slot -/

def c10listS : SourceList :=
  { id := "S", aliasName := "List S", type := .defaultList, contentType := some .series,
    group := none, shuffle := false, limit := none }

def c10slot : CatalogSlot :=
  { id := "s1", aliasName := "Slot 1", type := some .series, listIds := ["S"],
    currentSelection := none }

def c10cfg : ConfigData :=
  { lists := [c10listS], slots := [c10slot], settings := stdSettings }

def c10fetch : SourceList → Except String FetchRes :=
  fun _ => .ok { items := [], listName := "List S" }

def c10choice : Nat → Nat := fun _ => 0

def c10r : RefreshSuccess :=
  { listName := "List S", retried := false, isEmpty := true, failedListName := "",
    failReason := "" }

/-! ### Counterexamples to the original claim texts -/

/-- C1 counterexample: from a committed state with no selections, two engine
refresh operations leave both slots with `sourceId = "A"` — the same list,
which also means the same non-empty group `"action"` — because the second
refresh falls back to the full pool when the exclusivity filter empties it. -/
theorem c1_group_exclusivity_cex :
    NoSelections c1cfg0 ∧ EngineReachable c1cfg0 c1cfg2 ∧
    listGroupOf c1cfg2 "A" = some "action" ∧
    (c1cfg2.slots.map fun s => s.currentSelection.bind (·.sourceId)) =
      [some "A", some "A"] ∧
    ¬ ExclusiveInv c1cfg2 := by
  refine ⟨by decide, ?_, by decide, by decide, by decide⟩
  exact Relation.ReflTransGen.tail
    (Relation.ReflTransGen.single (EngineStep.refresh c1fetch c1choice 0 c1cfg0 "s1"))
    (EngineStep.refresh c1fetch c1choice 0 c1cfg1 "s2")

/-- C2 counterexample: when the single pooled list fails with the empty
message, the returned failure carries the fixed text `All lists failed`,
not the first attempt's (empty) error message. -/
theorem c2_first_error_cex :
    c2fetch c2l = .error "" ∧
    selectionPoolFor c2cfg "s1" c2slot = [c2l] ∧
    (refreshSlot c2fetch c2choice 0 c2cfg "s1").result = .failed "All lists failed" ∧
    (refreshSlot c2fetch c2choice 0 c2cfg "s1").result ≠ .failed "" := by
  exact ⟨rfl, by decide, by decide, by decide⟩

/-- C6 counterexample: slot `A` has the smaller candidate pool (1 eligible
list against 2) but the larger raw `listIds` (3 against 2), and
`refreshAllSlots` processes `B` first — the order follows `listIds.length`,
not the candidate-pool size. -/
theorem c6_order_cex :
    ((refreshAllSlots c6fetch c6choice 0 c6cfg).2.map Prod.fst = ["B", "A"]) ∧
    candidatePoolSize c6cfg "A" = 1 ∧
    candidatePoolSize c6cfg "B" = 2 ∧
    c6slotA.listIds.length = 3 ∧
    c6slotB.listIds.length = 2 ∧
    ¬ (candidatePoolSize c6cfg "B" ≤ candidatePoolSize c6cfg "A") := by decide

/-- C7 counterexample: the slot with no configured list ids keeps its stale
selection through the clearing phase, and that stale selection still counts
as active for the batch's exclusivity computation (it forces the other slot
onto list `B`). -/
theorem c7_clearing_cex :
    ((clearValidSlots c7cfg).slots.map fun s => s.currentSelection.bind (·.sourceId)) =
      [some "A", none] ∧
    activeListIdsFor (clearValidSlots c7cfg) "f" = ["A"] ∧
    ((refreshAllSlots c7fetch c7choice 0 c7cfg).1.slots.map
      fun s => s.currentSelection.bind (·.sourceId)) = [some "A", some "B"] := by decide

/-- C8 counterexample: an update that changes only the slot's type is
applied but forces no refresh, and the now type-mismatched selection is
kept. -/
theorem c8_type_change_cex :
    (updateSlot c8fetch c8choice 0 c8cfg "s1" c8upd).2.isSome = false ∧
    c8upd.type = some ContentType.series ∧
    c8slot.type = some ContentType.movie ∧
    (((updateSlot c8fetch c8choice 0 c8cfg "s1" c8upd).1.slots.find?
      (fun s => s.id == "s1")).map (·.type)) = some (some ContentType.series) ∧
    (((updateSlot c8fetch c8choice 0 c8cfg "s1" c8upd).1.slots.find?
      (fun s => s.id == "s1")).map (·.currentSelection)) = some (some c8sel) := by decide

/-- C9 counterexample: with no configured lists, `addSlot` creates the slot
and its immediate refresh returns the `noLists` early exit, leaving the new
slot with no `currentSelection`. -/
theorem c9_no_selection_cex :
    (((addSlot c9fetch c9choice 0 c9cfg "New" ContentType.movie).1.slots.find?
      (fun x => x.id == "0")).map (·.currentSelection)) = some none ∧
    (addSlot c9fetch c9choice 0 c9cfg "New" ContentType.movie).2.result =
      RefreshResult.noLists := by decide

/-! ### Witnesses: the amended theorems hold at concrete inputs -/

/-- Witness for the C1 amended theorem at a concrete configuration: the
freshly refreshed slot conflicts with no other slot. -/
theorem refreshSlot_no_fallback_exclusive_witness :
    slotsConflict (refreshSlot c1wfetch c1wchoice 5 c1wcfg "s1").config
      c1wslot1r c1wslot2 = false ∧
    slotsConflict (refreshSlot c1wfetch c1wchoice 5 c1wcfg "s1").config
      c1wslot2 c1wslot1r = false :=
  refreshSlot_no_fallback_exclusive c1wfetch c1wchoice 5 c1wcfg "s1" c1wslot1 c1wr
    (by decide) (by decide) (by decide) (by decide) (by decide) (by decide)
    c1wslot1r (by decide) c1wslot2 (by decide) (by decide) (by decide)

/-- Witness for the C2 amended theorem with the error message `boom`. -/
theorem refreshSlot_exhaustion_behavior_witness :
    (refreshSlot c2wfetch c2choice 3 c2cfg "s1").config = c2cfg ∧
    (refreshSlot c2wfetch c2choice 3 c2cfg "s1").saved = false ∧
    (refreshSlot c2wfetch c2choice 3 c2cfg "s1").result =
      .failed (if "boom" = "" then "All lists failed" else "boom") :=
  refreshSlot_exhaustion_behavior c2wfetch c2choice 3 c2cfg "s1" c2slot c2l "boom"
    (by decide) (fun l _ res h => by exact Except.noConfusion h) (by decide) rfl

/-- Witness for the C3 theorem: the second slot's active selection empties
the candidates, and the refresh still succeeds from the full pool. -/
theorem refreshSlot_fallback_widening_witness :
    selectionPoolFor c3cfg "s1" c3slot1 = availableListsFor c3cfg c3slot1 ∧
    ∃ r, (refreshSlot c3fetch c3choice 4 c3cfg "s1").result = .ok r :=
  refreshSlot_fallback_widening c3fetch c3choice 4 c3cfg "s1" c3slot1
    (by decide) (by decide) (by decide)
    (fun l _ => ⟨{ items := [], listName := "List A" }, rfl⟩)

/-- Witness for the C4 theorem at a concrete two-list configuration. -/
theorem refreshSlot_retry_exclude_and_reason_witness :
    RetryProps c4fetch (refreshSlot c4fetch c4choice 2 c4cfg "s1") ∧
    (∀ m, jsIncludes m "404" = true → formatFailReason m = "not found") ∧
    (∀ m, jsIncludes m "404" = false →
      (jsIncludes m "401" = true ∨ jsIncludes m "403" = true) →
      formatFailReason m = "access denied") ∧
    (∀ m, jsIncludes m "404" = false → jsIncludes m "401" = false →
      jsIncludes m "403" = false → jsIncludes m "empty" = true →
      formatFailReason m = "was empty") ∧
    (∀ m, jsIncludes m "404" = false → jsIncludes m "401" = false →
      jsIncludes m "403" = false → jsIncludes m "empty" = false →
      jsIncludes m "Missing" = true → formatFailReason m = "invalid config") ∧
    (∀ m, jsIncludes m "404" = false → jsIncludes m "401" = false →
      jsIncludes m "403" = false → jsIncludes m "empty" = false →
      jsIncludes m "Missing" = false → formatFailReason m = "unreachable") :=
  refreshSlot_retry_exclude_and_reason c4fetch c4choice 2 c4cfg "s1" c4slot
    (by decide) (by decide)

/-- Witness for the C5 theorem at a concrete one-item fetch. -/
theorem refreshSlot_header_invariant_witness :
    ∃ chosen items,
      chosen ∈ selectionPoolFor c5cfg "s1" c5slot ∧
      c5fetch chosen = .ok ⟨items, c5r.listName⟩ ∧
      (refreshSlot c5fetch c5choice 6 c5cfg "s1").config =
        { c5cfg with slots := updateFirstSlot c5cfg.slots "s1" (fun s => { s with
            currentSelection := some
              { name := c5r.listName
                sourceType := chosen.type
                sourceId := some chosen.id
                items := createHeaderItem c5slot c5r.listName 6 :: items } }) } ∧
      1 ≤ (createHeaderItem c5slot c5r.listName 6 :: items).length ∧
      (createHeaderItem c5slot c5r.listName 6 :: items).head? =
        some (createHeaderItem c5slot c5r.listName 6) ∧
      (createHeaderItem c5slot c5r.listName 6 :: items).tail = items ∧
      (createHeaderItem c5slot c5r.listName 6).id =
        "shufflist_header_" ++ c5slot.id ++ "_" ++ toString 6 ∧
      (createHeaderItem c5slot c5r.listName 6).name = c5r.listName ∧
      (createHeaderItem c5slot c5r.listName 6).description =
        "Currently displaying: " ++ c5r.listName :=
  refreshSlot_header_invariant c5fetch c5choice 6 c5cfg "s1" c5slot c5r
    (by decide) (by decide)

/-- Witness for the C7 amended theorem: the empty-`listIds` slot survives
the clearing phase unchanged. -/
theorem refreshAllSlots_clearing_witness :
    (refreshAllSlots c7fetch c7choice 9 c7cfg =
      (sortSlotsByListCount (validSlotsOf c7cfg)).foldl (fun acc slot =>
        let o := refreshSlot c7fetch (c7choice slot.id) 9 acc.1 slot.id
        (o.config, acc.2 ++ [(slot.id, o.result)])) (clearValidSlots c7cfg, [])) ∧
    (c7slotE.listIds = [] → c7slotE ∈ (clearValidSlots c7cfg).slots) ∧
    (c7slotE.listIds ≠ [] →
      { c7slotE with currentSelection := none } ∈ (clearValidSlots c7cfg).slots) :=
  refreshAllSlots_clearing c7fetch c7choice 9 c7cfg c7slotE (by decide)

/-- Witness for the C8 amended theorem at a type-only update. -/
theorem updateSlot_refresh_condition_witness :
    ((updateSlot c8fetch c8choice 0 c8cfg "s1" c8upd).2.isSome ↔
      (∃ lids, c8upd.listIds = some lids ∧
        ∃ sel sid, c8slot.currentSelection = some sel ∧ sel.sourceId = some sid ∧
          sid ≠ "" ∧ lids.contains sid = false)) ∧
    (c8upd.listIds = none → (updateSlot c8fetch c8choice 0 c8cfg "s1" c8upd).2 = none) :=
  updateSlot_refresh_condition c8fetch c8choice 0 c8cfg "s1" c8upd c8slot (by decide)

/-- Witness for the C9 amended theorem on an empty configuration. -/
theorem addSlot_spec_witness :
    ((addSlot c9fetch c9choice 0 c9cfg "New" ContentType.movie).2 =
      refreshSlot c9fetch c9choice 0
        { c9cfg with slots := c9cfg.slots ++ [newSlotFor c9cfg "New" ContentType.movie 0] }
        (toString 0)) ∧
    (∃ s, ((addSlot c9fetch c9choice 0 c9cfg "New" ContentType.movie).1.slots.find?
        (fun x => x.id == toString 0)) = some s ∧
      s.listIds = (c9cfg.lists.filter
        (fun l => ctOrMovie l.contentType == ContentType.movie)).map (·.id) ∧
      (∀ r, (addSlot c9fetch c9choice 0 c9cfg "New" ContentType.movie).2.result = .ok r →
        s.currentSelection ≠ none)) :=
  addSlot_spec c9fetch c9choice 0 c9cfg "New" ContentType.movie (by decide)

/-- Witness for the C10 theorem on a series-typed slot. -/
theorem createHeaderItem_movie_type_witness :
    (∀ (s : CatalogSlot) (listName : String) (n : Nat),
      (createHeaderItem s listName n).type = "movie") ∧
    ∃ (chosen : SourceList) (items : List Item),
      (refreshSlot c10fetch c10choice 8 c10cfg "s1").config =
        { c10cfg with slots := updateFirstSlot c10cfg.slots "s1" (fun s => { s with
            currentSelection := some
              { name := c10r.listName
                sourceType := chosen.type
                sourceId := some chosen.id
                items := createHeaderItem c10slot c10r.listName 8 :: items } }) } ∧
      ctOrMovie c10slot.type = ContentType.series ∧
      ((createHeaderItem c10slot c10r.listName 8 :: items).head?.map (·.type)) =
        some "movie" :=
  createHeaderItem_movie_type c10fetch c10choice 8 c10cfg "s1" c10slot c10r
    rfl (by decide) (by decide)
